import Mathlib

/-!
Verification development for the goreddit listing/comment-tree decoder.

The definitions below are a shallow embedding of the Go source:
  * `src/unnamed/part_000` — `FloatTime.UnmarshalJSON`, the listing
    intermediary structs (`postListingIntermediary`, `commentListingIntermediary`
    and friends), `CommentResponse.DecodeReplies`;
  * `src/api.go` — the decode portion of `RequestPostJSON`.

Go's `encoding/json` is embedded as a small executable JSON parser
(`parseValue` and friends) plus per-struct decoding functions that follow
Go's rules: missing keys keep the zero value, `null` keeps the current
value, wrong JSON types are errors, unknown keys are ignored, keys are
matched case-insensitively against the lowercase struct tags, and custom
unmarshallers (`FloatTime`, `json.RawMessage`) receive the raw bytes of
the value.

Pointers: `CommentResponse.Replies` in Go is `[]*CommentResponse`.  The
embedding makes the heap explicit: a `Store` is a list of comment cells
and a pointer is an index into it.  The repository predates Go 1.22 (no
`go 1.22` language version; pre-generics style throughout), so a `range`
loop declares a single loop variable per loop statement and `&comment.Data`
yields the same address on every iteration; the embedding mirrors that by
allocating exactly one cell per loop.
-/

namespace Goreddit

/-! ## JSON values -/

/-- JSON syntax tree.  Numbers keep their raw literal text, because Go hands
custom unmarshallers (`FloatTime.UnmarshalJSON`) the raw bytes of the value. -/
inductive Json where
  | null : Json
  | bool (b : Bool) : Json
  | num (raw : String) : Json
  | str (s : String) : Json
  | arr (elems : List Json) : Json
  | obj (fields : List (String × Json)) : Json

/-- Escape a string for JSON output (quote and backslash; the inputs used in
this development contain no control characters). -/
def escapeString (s : String) : String :=
  String.mk (s.data.foldr (fun c acc =>
    if c = '"' then '\\' :: '"' :: acc
    else if c = '\\' then '\\' :: '\\' :: acc
    else c :: acc) [])

mutual

/-- Canonical (whitespace-free) re-serialization of a JSON value.  This models
the raw bytes a `json.RawMessage` or custom unmarshaller receives; it agrees
with the original input bytes for whitespace-free wire input. -/
def render : Json → String
  | .null => "null"
  | .bool true => "true"
  | .bool false => "false"
  | .num raw => raw
  | .str s => "\"" ++ escapeString s ++ "\""
  | .arr es => "[" ++ renderElems es ++ "]"
  | .obj fs => "\x7b" ++ renderFields fs ++ "\x7d"

/-- Render the comma-separated elements of a JSON array. -/
def renderElems : List Json → String
  | [] => ""
  | [e] => render e
  | e :: es => render e ++ "," ++ renderElems es

/-- Render the comma-separated members of a JSON object. -/
def renderFields : List (String × Json) → String
  | [] => ""
  | [(k, v)] => "\"" ++ escapeString k ++ "\":" ++ render v
  | (k, v) :: fs => "\"" ++ escapeString k ++ "\":" ++ render v ++ "," ++ renderFields fs

end

/-! ## JSON parser (models the scanner of Go `encoding/json`) -/

/-- Skip JSON whitespace. -/
def skipWs : List Char → List Char
  | c :: cs => if c = ' ' ∨ c = '\n' ∨ c = '\t' ∨ c = '\r' then skipWs cs else c :: cs
  | [] => []

/-- Parse the body of a JSON string after the opening quote, returning the
decoded content and the rest of the input.  Handles the simple escapes;
`\u` escapes are outside the modelled scope (unused by this repository's
claims). -/
def parseStringBody : List Char → Option (String × List Char)
  | [] => none
  | '"' :: rest => some ("", rest)
  | '\\' :: rest =>
    match rest with
    | [] => none
    | e :: rest2 =>
      let c? : Option Char :=
        if e = '"' then some '"'
        else if e = '\\' then some '\\'
        else if e = '/' then some '/'
        else if e = 'n' then some '\n'
        else if e = 't' then some '\t'
        else if e = 'r' then some '\r'
        else if e = 'b' then some (Char.ofNat 8)
        else if e = 'f' then some (Char.ofNat 12)
        else none
      match c? with
      | none => none
      | some c =>
        match parseStringBody rest2 with
        | none => none
        | some (s, r) => some (String.mk (c :: s.data), r)
  | c :: rest =>
    match parseStringBody rest with
    | none => none
    | some (s, r) => some (String.mk (c :: s.data), r)

/-- Lex a JSON number starting at the current position, returning its raw
literal text and the rest.  Grammar: optional minus, digits, optional
fraction (with at least one digit), optional exponent. -/
def lexNumber (cs : List Char) : Option (String × List Char) :=
  let (sign, cs1) :=
    match cs with
    | '-' :: rest => (['-'], rest)
    | _ => (([] : List Char), cs)
  let (ip, cs2) := cs1.span Char.isDigit
  if ip.isEmpty then none else
  let (fp, cs3) :=
    match cs2 with
    | '.' :: rest =>
      let (d, r) := rest.span Char.isDigit
      (('.' :: d), r)
    | _ => (([] : List Char), cs2)
  if fp = ['.'] then none else
  let (ep, cs4) :=
    match cs3 with
    | 'e' :: rest =>
      (match rest with
       | '-' :: r2 => let (d, r3) := r2.span Char.isDigit; ('e' :: '-' :: d, r3)
       | '+' :: r2 => let (d, r3) := r2.span Char.isDigit; ('e' :: '+' :: d, r3)
       | _ => let (d, r3) := rest.span Char.isDigit; ('e' :: d, r3))
    | 'E' :: rest =>
      (match rest with
       | '-' :: r2 => let (d, r3) := r2.span Char.isDigit; ('E' :: '-' :: d, r3)
       | '+' :: r2 => let (d, r3) := r2.span Char.isDigit; ('E' :: '+' :: d, r3)
       | _ => let (d, r3) := rest.span Char.isDigit; ('E' :: d, r3))
    | _ => (([] : List Char), cs3)
  if ep = ['e'] ∨ ep = ['e', '-'] ∨ ep = ['e', '+'] ∨ ep = ['E'] ∨ ep = ['E', '-'] ∨ ep = ['E', '+'] then none else
  some (String.mk (sign ++ ip ++ fp ++ ep), cs4)

mutual

/-- Recursive-descent JSON value parser.  The fuel argument only bounds the
recursion; `jsonFuel` below always supplies enough for the whole input. -/
def parseValue : Nat → List Char → Option (Json × List Char)
  | 0, _ => none
  | Nat.succ f, cs =>
    match skipWs cs with
    | 'n' :: 'u' :: 'l' :: 'l' :: rest => some (.null, rest)
    | 't' :: 'r' :: 'u' :: 'e' :: rest => some (.bool true, rest)
    | 'f' :: 'a' :: 'l' :: 's' :: 'e' :: rest => some (.bool false, rest)
    | '"' :: rest =>
      match parseStringBody rest with
      | none => none
      | some (s, r) => some (.str s, r)
    | '\x7b' :: rest => parseObjBody f (skipWs rest)
    | '[' :: rest => parseArrBody f (skipWs rest)
    | c :: rest =>
      if c = '-' ∨ c.isDigit then
        match lexNumber (c :: rest) with
        | none => none
        | some (raw, r) => some (.num raw, r)
      else none
    | [] => none

/-- Parse an object body after the opening brace (whitespace skipped). -/
def parseObjBody : Nat → List Char → Option (Json × List Char)
  | 0, _ => none
  | Nat.succ f, cs =>
    match cs with
    | '\x7d' :: rest => some (.obj [], rest)
    | _ => parseObjMembers f cs []

/-- Parse the members of a JSON object, accumulating key/value pairs. -/
def parseObjMembers : Nat → List Char → List (String × Json) → Option (Json × List Char)
  | 0, _, _ => none
  | Nat.succ f, cs, acc =>
    match skipWs cs with
    | '"' :: rest =>
      match parseStringBody rest with
      | none => none
      | some (k, r1) =>
        match skipWs r1 with
        | ':' :: r2 =>
          match parseValue f r2 with
          | none => none
          | some (v, r3) =>
            match skipWs r3 with
            | ',' :: r4 => parseObjMembers f r4 (acc ++ [(k, v)])
            | '\x7d' :: r4 => some (.obj (acc ++ [(k, v)]), r4)
            | _ => none
        | _ => none
    | _ => none

/-- Parse an array body after the opening bracket (whitespace skipped). -/
def parseArrBody : Nat → List Char → Option (Json × List Char)
  | 0, _ => none
  | Nat.succ f, cs =>
    match cs with
    | ']' :: rest => some (.arr [], rest)
    | _ => parseArrElems f cs []

/-- Parse the elements of a JSON array, accumulating values. -/
def parseArrElems : Nat → List Char → List Json → Option (Json × List Char)
  | 0, _, _ => none
  | Nat.succ f, cs, acc =>
    match parseValue f cs with
    | none => none
    | some (v, r1) =>
      match skipWs r1 with
      | ',' :: r2 => parseArrElems f r2 (acc ++ [v])
      | ']' :: r2 => some (.arr (acc ++ [v]), r2)
      | _ => none

end

/-- Fuel that is always sufficient for `parseValue` on the given input:
every recursive call strictly consumes input, so linear fuel with a margin
covers any nesting. -/
def jsonFuel (s : String) : Nat := 4 * s.length + 16

/-- Parse a complete JSON document, requiring the whole input to be consumed
apart from trailing whitespace.  Models `json.Unmarshal`'s scanner. -/
def goParseJsonFull (s : String) : Option Json :=
  match parseValue (jsonFuel s) s.data with
  | none => none
  | some (v, rest) => if skipWs rest = [] then some v else none

/-- Parse one JSON value from the front of the input, ignoring trailing bytes.
Models `json.NewDecoder(body).Decode` as used by `decodeJSON` in
`src/api.go`. -/
def goParseJsonPrefix (s : String) : Option Json :=
  match parseValue (jsonFuel s) s.data with
  | none => none
  | some (v, _) => some v

/-! ## ScalarCodec: FloatTime (src/unnamed/part_000 lines 12-31) -/

/-- Go `time.Time` value as observable through this codec: either the zero
`time.Time` (the "keep zero value" branch) or `time.Unix(sec, 0)`. -/
inductive FloatTime where
  | zeroTime : FloatTime
  | unix (sec : Int) : FloatTime
deriving DecidableEq

/-- Exact accepted set of Go `strconv.ParseBool`: it returns a value for
`1, t, T, TRUE, true, True, 0, f, F, FALSE, false, False` and errors on
everything else. -/
def parseGoBool (s : String) : Option Bool :=
  if s = "1" ∨ s = "t" ∨ s = "T" ∨ s = "TRUE" ∨ s = "true" ∨ s = "True" then some true
  else if s = "0" ∨ s = "f" ∨ s = "F" ∨ s = "FALSE" ∨ s = "false" ∨ s = "False" then some false
  else none

/-- Digits to a natural number. -/
def digitsToNat (ds : List Char) : Nat :=
  ds.foldl (fun acc c => acc * 10 + (c.toNat - 48)) 0

/-- Composition of Go `strconv.ParseFloat(s, 64)` with the `int64(ts)`
truncation in `FloatTime.UnmarshalJSON`, computed exactly over the decimal
literal.  Scope: plain decimal literals with optional sign, fraction and
exponent — faithful to Go wherever the value lies in `float64`'s exactly
representable integer range (all JSON wire numbers relevant here).
Go's additional `ParseFloat` forms (`Inf`, `NaN`, hex floats, underscores)
are outside the modelled scope and are never produced by the JSON scanner. -/
def parseGoFloatTrunc (s : String) : Option Int :=
  let cs := s.data
  let (neg, cs1) :=
    match cs with
    | '-' :: rest => (true, rest)
    | '+' :: rest => (false, rest)
    | _ => (false, cs)
  let (ip, cs2) := cs1.span Char.isDigit
  let (fp, cs3) :=
    match cs2 with
    | '.' :: rest => rest.span Char.isDigit
    | _ => (([] : List Char), cs2)
  if ip.isEmpty ∧ fp.isEmpty then none else
  let (expPart, cs4) :=
    match cs3 with
    | 'e' :: rest =>
      (match rest with
       | '-' :: r2 => let (d, r3) := r2.span Char.isDigit; (some (true, d), r3)
       | '+' :: r2 => let (d, r3) := r2.span Char.isDigit; (some (false, d), r3)
       | _ => let (d, r3) := rest.span Char.isDigit; (some (false, d), r3))
    | 'E' :: rest =>
      (match rest with
       | '-' :: r2 => let (d, r3) := r2.span Char.isDigit; (some (true, d), r3)
       | '+' :: r2 => let (d, r3) := r2.span Char.isDigit; (some (false, d), r3)
       | _ => let (d, r3) := rest.span Char.isDigit; (some (false, d), r3))
    | _ => (none, cs3)
  let expOk := match expPart with | none => true | some (_, d) => ¬ d.isEmpty
  if ¬ expOk ∨ cs4 ≠ [] then none else
  let m : Nat := digitsToNat (ip ++ fp)
  let e : Int :=
    (match expPart with
     | some (true, d) => -(digitsToNat d : Int)
     | some (false, d) => (digitsToNat d : Int)
     | none => 0) - (fp.length : Int)
  let mag : Nat := if 0 ≤ e then m * 10 ^ e.toNat else m / 10 ^ (-e).toNat
  some (if neg then -(mag : Int) else (mag : Int))

/-- Decode errors, mirroring the actual error sources in the Go code. -/
inductive GoErr where
  | jsonSyntaxErr : GoErr
  | typeErr (goType : String) : GoErr
  | floatParseErr (raw : String) : GoErr
  | fuelExhausted : GoErr
deriving DecidableEq

/-- Embedding of `FloatTime.UnmarshalJSON` (src/unnamed/part_000 lines 16-31):
try `strconv.ParseBool` on the raw bytes first ("reddit is dodgy like that")
and keep the receiver's value on success; otherwise `strconv.ParseFloat`
followed by `int64` truncation and `time.Unix`; otherwise error. -/
def floatTimeUnmarshal (ft : FloatTime) (data : String) : Except GoErr FloatTime :=
  match parseGoBool data with
  | some _ => .ok ft
  | none =>
    match parseGoFloatTrunc data with
    | none => .error (.floatParseErr data)
    | some n => .ok (.unix n)

example : floatTimeUnmarshal .zeroTime "1622548800.0" = .ok (.unix 1622548800) := rfl
example : floatTimeUnmarshal .zeroTime "false" = .ok .zeroTime := rfl
example : floatTimeUnmarshal .zeroTime "1" = .ok .zeroTime := rfl
example : floatTimeUnmarshal .zeroTime "\"not-a-number\"" = .error (.floatParseErr "\"not-a-number\"") := rfl

/-! ## Go struct field decoding helpers

Go `encoding/json` decodes a JSON object into a struct by walking the
object's members in input order, matching each key against the struct
tags case-insensitively, ignoring unknown keys, leaving missing fields at
their zero value, decoding `null` as a no-op, and reporting a wrong JSON
type as an error.  (Go records the first such error and keeps decoding;
every call site in this repository discards the partial value whenever a
non-nil error is returned, so aborting on the first error is observably
equivalent.) -/

/-- Decode a JSON value into a Go `string` field currently holding `cur`. -/
def goDecString (cur : String) : Json → Except GoErr String
  | .str s => .ok s
  | .null => .ok cur
  | _ => .error (.typeErr "string")

/-- Decode a JSON value into a Go `bool` field currently holding `cur`. -/
def goDecBool (cur : Bool) : Json → Except GoErr Bool
  | .bool b => .ok b
  | .null => .ok cur
  | _ => .error (.typeErr "bool")

/-- ASCII-lowercase a key, modelling the case-insensitive field matching of
Go `encoding/json` (its fold is ASCII for the tags appearing here). -/
def lowerKey (s : String) : String := String.mk (s.data.map Char.toLower)

/-- Go `strconv.ParseInt(s, 10, 64)` on a number literal: optional sign then
decimal digits. -/
def goAtoi (s : String) : Option Int :=
  match s.data with
  | '-' :: ds => if ds ≠ [] ∧ ds.all Char.isDigit then some (-(digitsToNat ds : Int)) else none
  | '+' :: ds => if ds ≠ [] ∧ ds.all Char.isDigit then some ((digitsToNat ds : Int)) else none
  | ds => if ds ≠ [] ∧ ds.all Char.isDigit then some ((digitsToNat ds : Int)) else none

/-- Decode a JSON value into a Go `int`/`int64` field currently holding `cur`:
the number literal must be an integer (Go runs `strconv.ParseInt` on it). -/
def goDecInt (cur : Int) : Json → Except GoErr Int
  | .num raw =>
    match goAtoi raw with
    | some n => .ok n
    | none => .error (.typeErr "int64")
  | .null => .ok cur
  | _ => .error (.typeErr "int64")

/-- Decode a JSON value into a `FloatTime` field: Go calls the custom
`UnmarshalJSON` with the raw bytes of the value (including for `null`). -/
def goDecFloatTime (cur : FloatTime) (v : Json) : Except GoErr FloatTime :=
  floatTimeUnmarshal cur (render v)

/-! ## Data model (src/unnamed/part_000 lines 166-247) -/

/-- Heap address of a `CommentResponse` cell (a Go `*CommentResponse`). -/
abbrev Ptr := Nat

/-- Embedding of the Go struct `CommentResponse` (src/unnamed/part_000 lines
222-247).  `repliesListing` is the `json.RawMessage` field (raw bytes as a
string; the Go zero value `nil` is the empty string).  `replies` embeds
`Replies []*CommentResponse` as a list of heap addresses. -/
structure CommentResponse where
  subreddit : String
  saved : Bool
  gildCount : Int
  downvotes : Int
  name : String
  subredditType : String
  upvotes : Int
  authorName : String
  score : Int
  edited : FloatTime
  archived : Bool
  removed : Bool
  spoiler : Bool
  locked : Bool
  subredditName : String
  author : String
  contestMode : Bool
  approved : Bool
  stickied : Bool
  createdUTC : FloatTime
  body : String
  parentID : String
  repliesListing : String
  replies : List Ptr
deriving DecidableEq

/-- The Go zero value of `CommentResponse`. -/
def CommentResponse.zero : CommentResponse :=
  { subreddit := "", saved := false, gildCount := 0, downvotes := 0, name := ""
  , subredditType := "", upvotes := 0, authorName := "", score := 0
  , edited := .zeroTime, archived := false, removed := false, spoiler := false
  , locked := false, subredditName := "", author := "", contestMode := false
  , approved := false, stickied := false, createdUTC := .zeroTime, body := ""
  , parentID := "", repliesListing := "", replies := [] }

instance : Inhabited CommentResponse := ⟨CommentResponse.zero⟩

/-- Assign one JSON object member into a `CommentResponse`, following the
struct tags of the Go source.  The key `replies` matches the tagged
`RepliesListing json.RawMessage` field (a tagged field wins over the
untagged `Replies` field in Go), which stores the raw bytes verbatim.
Unknown keys are ignored. -/
def commentAssign (c : CommentResponse) (k : String) (v : Json) : Except GoErr CommentResponse :=
  match lowerKey k with
  | "subreddit" => (goDecString c.subreddit v).map fun x => { c with subreddit := x }
  | "saved" => (goDecBool c.saved v).map fun x => { c with saved := x }
  | "gilded" => (goDecInt c.gildCount v).map fun x => { c with gildCount := x }
  | "downs" => (goDecInt c.downvotes v).map fun x => { c with downvotes := x }
  | "name" => (goDecString c.name v).map fun x => { c with name := x }
  | "subreddit_type" => (goDecString c.subredditType v).map fun x => { c with subredditType := x }
  | "ups" => (goDecInt c.upvotes v).map fun x => { c with upvotes := x }
  | "author_fullname" => (goDecString c.authorName v).map fun x => { c with authorName := x }
  | "score" => (goDecInt c.score v).map fun x => { c with score := x }
  | "edited" => (goDecFloatTime c.edited v).map fun x => { c with edited := x }
  | "archived" => (goDecBool c.archived v).map fun x => { c with archived := x }
  | "removed" => (goDecBool c.removed v).map fun x => { c with removed := x }
  | "spoiler" => (goDecBool c.spoiler v).map fun x => { c with spoiler := x }
  | "locked" => (goDecBool c.locked v).map fun x => { c with locked := x }
  | "subreddit_id" => (goDecString c.subredditName v).map fun x => { c with subredditName := x }
  | "author" => (goDecString c.author v).map fun x => { c with author := x }
  | "contest_mode" => (goDecBool c.contestMode v).map fun x => { c with contestMode := x }
  | "approved" => (goDecBool c.approved v).map fun x => { c with approved := x }
  | "stickied" => (goDecBool c.stickied v).map fun x => { c with stickied := x }
  | "created_utc" => (goDecFloatTime c.createdUTC v).map fun x => { c with createdUTC := x }
  | "body" => (goDecString c.body v).map fun x => { c with body := x }
  | "parent_id" => (goDecString c.parentID v).map fun x => { c with parentID := x }
  | "replies" => .ok { c with repliesListing := render v }
  | _ => .ok c

/-- Decode a JSON value into a `CommentResponse`, per Go struct decoding. -/
def decodeCommentResponse : Json → Except GoErr CommentResponse
  | .obj fs => fs.foldlM (fun c kv => commentAssign c kv.1 kv.2) CommentResponse.zero
  | .null => .ok CommentResponse.zero
  | _ => .error (.typeErr "CommentResponse")

/-- Embedding of `commentIntermediary2` (src/unnamed/part_000 lines 218-220). -/
structure commentIntermediary2 where
  data : CommentResponse
deriving DecidableEq

/-- Embedding of `commentIntermediary1` (src/unnamed/part_000 lines 214-216). -/
structure commentIntermediary1 where
  children : List commentIntermediary2
deriving DecidableEq

/-- Embedding of `commentListingIntermediary` (src/unnamed/part_000 lines
210-212). -/
structure commentListingIntermediary where
  data : commentIntermediary1
deriving DecidableEq

/-- Decode a JSON value into a `commentIntermediary2` (tag `data`). -/
def decodeCommentIntermediary2 : Json → Except GoErr commentIntermediary2
  | .obj fs =>
    fs.foldlM (fun c kv =>
      if lowerKey kv.1 = "data" then
        (decodeCommentResponse kv.2).map fun x => { c with data := x }
      else .ok c) ⟨CommentResponse.zero⟩
  | .null => .ok ⟨CommentResponse.zero⟩
  | _ => .error (.typeErr "commentIntermediary2")

/-- Decode a JSON value into a `[]commentIntermediary2` field. -/
def decodeCommentChildren (cur : List commentIntermediary2) :
    Json → Except GoErr (List commentIntermediary2)
  | .arr es => es.mapM decodeCommentIntermediary2
  | .null => .ok cur
  | _ => .error (.typeErr "[]commentIntermediary2")

/-- Decode a JSON value into a `commentIntermediary1` (tag `children`). -/
def decodeCommentIntermediary1 : Json → Except GoErr commentIntermediary1
  | .obj fs =>
    fs.foldlM (fun c kv =>
      if lowerKey kv.1 = "children" then
        (decodeCommentChildren c.children kv.2).map fun x => { c with children := x }
      else .ok c) ⟨[]⟩
  | .null => .ok ⟨[]⟩
  | _ => .error (.typeErr "commentIntermediary1")

/-- Decode a JSON value into a `commentListingIntermediary` (tag `data`). -/
def decodeCommentListingIntermediary : Json → Except GoErr commentListingIntermediary
  | .obj fs =>
    fs.foldlM (fun c kv =>
      if lowerKey kv.1 = "data" then
        (decodeCommentIntermediary1 kv.2).map fun x => { c with data := x }
      else .ok c) ⟨⟨[]⟩⟩
  | .null => .ok ⟨⟨[]⟩⟩
  | _ => .error (.typeErr "commentListingIntermediary")

/-- Embedding of `json.Unmarshal(bytes, &commentListing)` where the target is
a `commentListingIntermediary` (used by `DecodeReplies` and by
`RequestPostJSON` for response element 1). -/
def unmarshalCommentListing (s : String) : Except GoErr commentListingIntermediary :=
  match goParseJsonFull s with
  | none => .error .jsonSyntaxErr
  | some v => decodeCommentListingIntermediary v

example : unmarshalCommentListing "\x7b\"data\":\x7b\"children\":[]\x7d\x7d" = .ok ⟨⟨[]⟩⟩ := rfl
example : unmarshalCommentListing "\x7b\"data\":\x7b\x7d\x7d" = .ok ⟨⟨[]⟩⟩ := rfl
example : unmarshalCommentListing "\x7b\x7d" = .ok ⟨⟨[]⟩⟩ := rfl
example : unmarshalCommentListing "" = .error .jsonSyntaxErr := rfl
example : unmarshalCommentListing "\x7b\"data\":5\x7d" = .error (.typeErr "commentIntermediary1") := rfl
example : unmarshalCommentListing "\x7b\"data\":\x7b\"children\":5\x7d\x7d" = .error (.typeErr "[]commentIntermediary2") := rfl

/-! ## PostResponse (src/unnamed/part_000 lines 166-208) -/

/-- Embedding of the Go struct `PostResponse` (src/unnamed/part_000 lines
178-208).  `replies` embeds the untagged `Replies []CommentResponse` field
(comment values, not pointers). -/
structure PostResponse where
  subreddit : String
  saved : Bool
  gildCount : Int
  hidden : Bool
  downvotes : Int
  name : String
  id : String
  quarantined : Bool
  subredditType : String
  upvotes : Int
  authorName : String
  commentCount : Int
  score : Int
  edited : FloatTime
  isSelf : Bool
  archived : Bool
  nsfw : Bool
  removed : Bool
  spoiler : Bool
  locked : Bool
  subredditName : String
  author : String
  contestMode : Bool
  approved : Bool
  stickied : Bool
  url : String
  createdUTC : FloatTime
  body : String
  replies : List CommentResponse
deriving DecidableEq

/-- The Go zero value of `PostResponse`. -/
def PostResponse.zero : PostResponse :=
  { subreddit := "", saved := false, gildCount := 0, hidden := false
  , downvotes := 0, name := "", id := "", quarantined := false
  , subredditType := "", upvotes := 0, authorName := "", commentCount := 0
  , score := 0, edited := .zeroTime, isSelf := false, archived := false
  , nsfw := false, removed := false, spoiler := false, locked := false
  , subredditName := "", author := "", contestMode := false, approved := false
  , stickied := false, url := "", createdUTC := .zeroTime, body := ""
  , replies := [] }

instance : Inhabited PostResponse := ⟨PostResponse.zero⟩

/-- Decode a JSON value into a `[]CommentResponse` field (used for the
untagged `Replies` field of `PostResponse`, matched by field name). -/
def decodeCommentSlice (cur : List CommentResponse) :
    Json → Except GoErr (List CommentResponse)
  | .arr es => es.mapM decodeCommentResponse
  | .null => .ok cur
  | _ => .error (.typeErr "[]CommentResponse")

/-- Assign one JSON object member into a `PostResponse`, following the
struct tags of the Go source; the untagged `Replies` field is matched by
its field name (case-insensitively), per Go. -/
def postAssign (p : PostResponse) (k : String) (v : Json) : Except GoErr PostResponse :=
  match lowerKey k with
  | "subreddit" => (goDecString p.subreddit v).map fun x => { p with subreddit := x }
  | "saved" => (goDecBool p.saved v).map fun x => { p with saved := x }
  | "gilded" => (goDecInt p.gildCount v).map fun x => { p with gildCount := x }
  | "hidden" => (goDecBool p.hidden v).map fun x => { p with hidden := x }
  | "downs" => (goDecInt p.downvotes v).map fun x => { p with downvotes := x }
  | "name" => (goDecString p.name v).map fun x => { p with name := x }
  | "id" => (goDecString p.id v).map fun x => { p with id := x }
  | "quarantine" => (goDecBool p.quarantined v).map fun x => { p with quarantined := x }
  | "subreddit_type" => (goDecString p.subredditType v).map fun x => { p with subredditType := x }
  | "ups" => (goDecInt p.upvotes v).map fun x => { p with upvotes := x }
  | "author_fullname" => (goDecString p.authorName v).map fun x => { p with authorName := x }
  | "num_comments" => (goDecInt p.commentCount v).map fun x => { p with commentCount := x }
  | "score" => (goDecInt p.score v).map fun x => { p with score := x }
  | "edited" => (goDecFloatTime p.edited v).map fun x => { p with edited := x }
  | "is_self" => (goDecBool p.isSelf v).map fun x => { p with isSelf := x }
  | "archived" => (goDecBool p.archived v).map fun x => { p with archived := x }
  | "over_18" => (goDecBool p.nsfw v).map fun x => { p with nsfw := x }
  | "removed" => (goDecBool p.removed v).map fun x => { p with removed := x }
  | "spoiler" => (goDecBool p.spoiler v).map fun x => { p with spoiler := x }
  | "locked" => (goDecBool p.locked v).map fun x => { p with locked := x }
  | "subreddit_id" => (goDecString p.subredditName v).map fun x => { p with subredditName := x }
  | "author" => (goDecString p.author v).map fun x => { p with author := x }
  | "contest_mode" => (goDecBool p.contestMode v).map fun x => { p with contestMode := x }
  | "approved" => (goDecBool p.approved v).map fun x => { p with approved := x }
  | "stickied" => (goDecBool p.stickied v).map fun x => { p with stickied := x }
  | "url" => (goDecString p.url v).map fun x => { p with url := x }
  | "created_utc" => (goDecFloatTime p.createdUTC v).map fun x => { p with createdUTC := x }
  | "selftext" => (goDecString p.body v).map fun x => { p with body := x }
  | "replies" => (decodeCommentSlice p.replies v).map fun x => { p with replies := x }
  | _ => .ok p

/-- Decode a JSON value into a `PostResponse`, per Go struct decoding. -/
def decodePostResponse : Json → Except GoErr PostResponse
  | .obj fs => fs.foldlM (fun p kv => postAssign p kv.1 kv.2) PostResponse.zero
  | .null => .ok PostResponse.zero
  | _ => .error (.typeErr "PostResponse")

/-- Embedding of `postIntermediary2` (src/unnamed/part_000 lines 174-176). -/
structure postIntermediary2 where
  data : PostResponse
deriving DecidableEq

/-- Embedding of `postIntermediary1` (src/unnamed/part_000 lines 170-172). -/
structure postIntermediary1 where
  children : List postIntermediary2
deriving DecidableEq

/-- Embedding of `postListingIntermediary` (src/unnamed/part_000 lines
166-168). -/
structure postListingIntermediary where
  data : postIntermediary1
deriving DecidableEq

/-- Decode a JSON value into a `postIntermediary2` (tag `data`). -/
def decodePostIntermediary2 : Json → Except GoErr postIntermediary2
  | .obj fs =>
    fs.foldlM (fun c kv =>
      if lowerKey kv.1 = "data" then
        (decodePostResponse kv.2).map fun x => { c with data := x }
      else .ok c) ⟨PostResponse.zero⟩
  | .null => .ok ⟨PostResponse.zero⟩
  | _ => .error (.typeErr "postIntermediary2")

/-- Decode a JSON value into a `[]postIntermediary2` field. -/
def decodePostChildren (cur : List postIntermediary2) :
    Json → Except GoErr (List postIntermediary2)
  | .arr es => es.mapM decodePostIntermediary2
  | .null => .ok cur
  | _ => .error (.typeErr "[]postIntermediary2")

/-- Decode a JSON value into a `postIntermediary1` (tag `children`). -/
def decodePostIntermediary1 : Json → Except GoErr postIntermediary1
  | .obj fs =>
    fs.foldlM (fun c kv =>
      if lowerKey kv.1 = "children" then
        (decodePostChildren c.children kv.2).map fun x => { c with children := x }
      else .ok c) ⟨[]⟩
  | .null => .ok ⟨[]⟩
  | _ => .error (.typeErr "postIntermediary1")

/-- Decode a JSON value into a `postListingIntermediary` (tag `data`). -/
def decodePostListingIntermediary : Json → Except GoErr postListingIntermediary
  | .obj fs =>
    fs.foldlM (fun c kv =>
      if lowerKey kv.1 = "data" then
        (decodePostIntermediary1 kv.2).map fun x => { c with data := x }
      else .ok c) ⟨⟨[]⟩⟩
  | .null => .ok ⟨⟨[]⟩⟩
  | _ => .error (.typeErr "postListingIntermediary")

/-- Embedding of `json.Unmarshal(arrays[0], &posts)` in `RequestPostJSON`
(src/api.go lines 304-309). -/
def unmarshalPostListing (s : String) : Except GoErr postListingIntermediary :=
  match goParseJsonFull s with
  | none => .error .jsonSyntaxErr
  | some v => decodePostListingIntermediary v

/-! ## ReplyTreeBuilder: CommentResponse.DecodeReplies
(src/unnamed/part_000 lines 249-282)

The Go method mutates through pointers, so the embedding threads an
explicit heap.  A `Store` is the list of allocated `CommentResponse`
cells; a `Ptr` is an index into it.

The `range` loop

    for _, comment := range commentListing.Data.Children {
        parentComment.Replies = append(parentComment.Replies, &comment.Data)
        err = comment.Data.DecodeReplies()
        ...
    }

declares (under the pre-1.22 semantics this module compiles with) ONE
variable `comment` for the whole loop; each iteration copies the next
child into it, and `&comment.Data` is the same address every iteration.
The embedding allocates exactly one cell per loop (`cell`), overwrites it
at the start of each iteration, appends `cell` to the parent's reply
pointers, and recurses on the cell's contents.

The result triple is (deferred-error, parent value, heap): the Go method
mutates `parentComment` through a pointer, so the (possibly mutated)
parent is returned even when an error is reported.  The `defer` at the
top of the method empties `RepliesListing` exactly when `failed` is
`false`, i.e. exactly on the `nil`-error paths. -/

/-- Heap of comment cells; a `Ptr` is an index into it. -/
abbrev Store := List CommentResponse

/-- The `range` loop of `DecodeReplies`, parameterized over the recursive
call (`step`, the decode of one child).  `cell` is the address of the single
loop variable's `Data` field: each iteration overwrites it, appends the SAME
address to the parent's reply pointers, and recurses on the cell's contents.
On a child error the loop stops and reports the error (Go `return err`),
with the pointer already appended, as in the source. -/
def DecodeRepliesLoop (step : CommentResponse → Store → Option GoErr × CommentResponse × Store)
    (children : List commentIntermediary2) (cell : Ptr)
    (parentComment : CommentResponse) (store : Store) :
    Option GoErr × CommentResponse × Store :=
  match children with
  | [] => (none, parentComment, store)
  | comment :: rest =>
    let store1 := store.set cell comment.data
    let parent1 := { parentComment with replies := parentComment.replies ++ [cell] }
    match step comment.data store1 with
    | (some e, c2, s2) => (some e, parent1, s2.set cell c2)
    | (none, c2, s2) => DecodeRepliesLoop step rest cell parent1 (s2.set cell c2)

/-- Embedding of `CommentResponse.DecodeReplies` (src/unnamed/part_000 lines
249-282).  `fuel` bounds the recursion depth (Go's recursion is bounded by
the actual nesting depth of the payload; `GoErr.fuelExhausted` never arises
when `fuel` exceeds that depth).  Note the empty-string-literal test and its
success path consume no fuel: that branch performs no recursion. -/
def DecodeReplies (fuel : Nat) (parentComment : CommentResponse) (store : Store) :
    Option GoErr × CommentResponse × Store :=
  if parentComment.repliesListing = "\"\"" then
    (none, { parentComment with repliesListing := "" }, store)
  else
    match fuel with
    | 0 => (some .fuelExhausted, parentComment, store)
    | Nat.succ f =>
      match unmarshalCommentListing parentComment.repliesListing with
      | .error e => (some e, parentComment, store)
      | .ok commentListing =>
        match DecodeRepliesLoop (fun c s => DecodeReplies f c s)
            commentListing.data.children store.length parentComment
            (store ++ [CommentResponse.zero]) with
        | (some e, p, s) => (some e, p, s)
        | (none, p, s) => (none, { p with repliesListing := "" }, s)
termination_by structural fuel

/-! ## ListingAssembler: the decode portion of RequestPostJSON
(src/api.go lines 297-333) -/

/-- Outcome of the decode portion of `RequestPostJSON`: a Go runtime panic
(out-of-range slice index), a returned error, or the returned `*PostResponse`
together with the heap its comment cells live in. -/
inductive DecOutcome where
  | panics (msg : String) : DecOutcome
  | fails (e : GoErr) : DecOutcome
  | ok (post : PostResponse) (store : Store) : DecOutcome
deriving DecidableEq

/-- Panic message of an out-of-range Go slice index (the index/length details
are elided; no claim depends on the message text). -/
def oorPanic : String := "runtime error: index out of range"

/-- Embedding of `decodeJSON(resp.Body, &arrays)` with
`arrays []json.RawMessage` (src/api.go lines 297-302): one JSON value is
decoded from the front of the body; a top-level array yields the raw bytes
of its elements, `null` leaves the slice `nil`, and any other value is a
type error. -/
def decodeJSONRawArray (s : String) : Except GoErr (List String) :=
  match goParseJsonPrefix s with
  | none => .error .jsonSyntaxErr
  | some v =>
    match v with
    | .arr es => .ok (es.map render)
    | .null => .ok []
    | _ => .error (.typeErr "[]json.RawMessage")

/-- The `range` loop over `commentsListing.Data.Children` in
`RequestPostJSON` (src/api.go lines 319-327): decode each child's reply
subtree, abort on the first error, and append the (value-copied) comment in
input order.  The loop variable is copied into `comments` by value, so this
loop has no cross-iteration aliasing; the heap threads through so that the
reply cells allocated for different top-level comments are distinct. -/
def decodeTopComments (fuel : Nat) :
    List commentIntermediary2 → Store → Except GoErr (List CommentResponse × Store)
  | [], store => .ok ([], store)
  | comment :: rest, store =>
    match DecodeReplies fuel comment.data store with
    | (some e, _, _) => .error e
    | (none, c2, store2) =>
      match decodeTopComments fuel rest store2 with
      | .error e => .error e
      | .ok (cs, st) => .ok (c2 :: cs, st)

/-- The tail of `RequestPostJSON` after the Post has been selected from
element 0 (src/api.go lines 312-332): unmarshal `arrays[1]` as a comment
listing, decode every top-level comment's reply subtree, store the comments
in the post, and return it. -/
def assembleWithPost (fuel : Nat) (post : PostResponse) (arrays : List String) : DecOutcome :=
  match arrays.get? 1 with
  | none => .panics oorPanic
  | some a1 =>
    match unmarshalCommentListing a1 with
    | .error e => .fails e
    | .ok commentsListing =>
      match decodeTopComments fuel commentsListing.data.children [] with
      | .error e => .fails e
      | .ok (comments, store) => .ok { post with replies := comments } store

/-- Embedding of the decode portion of `RequestPostJSON` once the response
body has been split into `arrays` (src/api.go lines 304-332).  Note the
source takes `posts.Data.Children[0]` with no length check: an empty
`arrays` or an empty `Children` slice is a runtime panic, and extra
children are silently ignored. -/
def assembleFromArrays (fuel : Nat) (arrays : List String) : DecOutcome :=
  match arrays.get? 0 with
  | none => .panics oorPanic
  | some a0 =>
    match unmarshalPostListing a0 with
    | .error e => .fails e
    | .ok posts =>
      match posts.data.children.get? 0 with
      | none => .panics oorPanic
      | some child0 => assembleWithPost fuel child0.data arrays

/-- Embedding of the decode portion of `RequestPostJSON` (src/api.go lines
297-333), from response body bytes to the returned post (or error/panic). -/
def requestPostJSONDecode (fuel : Nat) (body : String) : DecOutcome :=
  match decodeJSONRawArray body with
  | .error e => .fails e
  | .ok arrays => assembleFromArrays fuel arrays

/-! ## Concrete wire inputs used by the claims -/

/-- A comment listing whose element-0 comment has body `A` and whose second
comment has body `B`; both have the empty-string replies literal.  This is
the failing input for the reply-aliasing claims. -/
def twoChildListing : String :=
  "\x7b\"data\":\x7b\"children\":[\x7b\"data\":\x7b\"body\":\"A\",\"replies\":\"\"\x7d\x7d,\x7b\"data\":\x7b\"body\":\"B\",\"replies\":\"\"\x7d\x7d]\x7d\x7d"

/-- A parent comment whose raw replies payload is `twoChildListing`. -/
def aliasParent : CommentResponse :=
  { CommentResponse.zero with repliesListing := twoChildListing }

example :
    (unmarshalCommentListing twoChildListing).map
      (fun l => l.data.children.map (fun c => c.data.body)) = .ok ["A", "B"] := rfl

example :
    DecodeReplies 1 aliasParent [] =
      (none,
       { CommentResponse.zero with repliesListing := "", replies := [0, 0] },
       [{ CommentResponse.zero with body := "B", repliesListing := "" }]) := rfl

/-! ## Helper lemmas about DecodeReplies -/

/-- The loop of `DecodeReplies` only ever touches the parent's `replies`
field; in particular the parent's raw `repliesListing` buffer survives the
loop unchanged, whatever the step function does. -/
theorem DecodeRepliesLoop_repliesListing
    (step : CommentResponse → Store → Option GoErr × CommentResponse × Store) :
    ∀ (children : List commentIntermediary2) (cell : Ptr) (p : CommentResponse) (s : Store),
      ((DecodeRepliesLoop step children cell p s).2.1).repliesListing = p.repliesListing := by
  intro children
  induction children with
  | nil => intro cell p s; rfl
  | cons comment rest ih =>
    intro cell p s
    rcases h : step comment.data (s.set cell comment.data) with ⟨eo, c2, s2⟩
    cases eo with
    | some e =>
      simp only [DecodeRepliesLoop, h]
    | none =>
      simp only [DecodeRepliesLoop, h]
      exact ih cell _ _

/-- On every success path `DecodeReplies` empties the parent's raw buffer. -/
theorem DecodeReplies_success_listing (fuel : Nat) (p : CommentResponse) (s : Store)
    (q : CommentResponse) (t : Store) (h : DecodeReplies fuel p s = (none, q, t)) :
    q.repliesListing = "" := by
  unfold DecodeReplies at h
  split at h
  · exact (congrArg (fun x => x.2.1.repliesListing) h).symm
  · split at h
    · simp at h
    · split at h
      · simp at h
      · split at h
        · simp at h
        · exact (congrArg (fun x => x.2.1.repliesListing) h).symm

/-- On every error path `DecodeReplies` leaves the parent's raw buffer
exactly as it found it. -/
theorem DecodeReplies_error_listing (fuel : Nat) (p : CommentResponse) (s : Store)
    (e : GoErr) (q : CommentResponse) (t : Store)
    (h : DecodeReplies fuel p s = (some e, q, t)) :
    q.repliesListing = p.repliesListing := by
  unfold DecodeReplies at h
  split at h
  · simp at h
  · split at h
    · exact (congrArg (fun x => x.2.1.repliesListing) h).symm
    · split at h
      · exact (congrArg (fun x => x.2.1.repliesListing) h).symm
      · split at h
        · rename_i heq
          exact (congrArg (fun x => x.2.1.repliesListing) h).symm.trans
            ((congrArg (fun x => x.2.1.repliesListing) heq).symm.trans
              (DecodeRepliesLoop_repliesListing _ _ _ _ _))
        · simp at h

/-- A zero-length raw buffer is not the empty-string literal, and feeding it
to `json.Unmarshal` is a syntax error, so `DecodeReplies` reports an error. -/
theorem DecodeReplies_emptyBuffer_errors (fuel : Nat) (p : CommentResponse) (s : Store)
    (h0 : p.repliesListing = "") :
    ∃ e q t, DecodeReplies fuel p s = (some e, q, t) := by
  have hlit : p.repliesListing ≠ "\"\"" := by rw [h0]; decide
  cases fuel with
  | zero =>
    refine ⟨.fuelExhausted, p, s, ?_⟩
    unfold DecodeReplies
    rw [if_neg hlit]
  | succ f =>
    refine ⟨.jsonSyntaxErr, p, s, ?_⟩
    unfold DecodeReplies
    rw [if_neg hlit, h0]
    rfl

/-- The empty-string-literal branch of `DecodeReplies`, valid at every fuel
value (including zero: the branch performs no recursion). -/
theorem DecodeReplies_emptyLiteral (fuel : Nat) (p : CommentResponse) (s : Store)
    (h : p.repliesListing = "\"\"") :
    DecodeReplies fuel p s = (none, { p with repliesListing := "" }, s) := by
  unfold DecodeReplies
  rw [if_pos h]

/-- When the top-level comment loop of `RequestPostJSON` succeeds it returns
exactly one comment per child of the listing, in input order, each one the
successful `DecodeReplies` output for the corresponding child. -/
theorem decodeTopComments_spec (fuel : Nat) :
    ∀ (children : List commentIntermediary2) (store : Store)
      (cs : List CommentResponse) (st : Store),
      decodeTopComments fuel children store = .ok (cs, st) →
      cs.length = children.length ∧
      ∀ i (hic : i < children.length) (hics : i < cs.length), ∃ s1 s2,
        DecodeReplies fuel (children.get ⟨i, hic⟩).data s1 = (none, cs.get ⟨i, hics⟩, s2) := by
  intro children
  induction children with
  | nil =>
    intro store cs st h
    simp only [decodeTopComments] at h
    obtain ⟨rfl, rfl⟩ : cs = [] ∧ st = store := by
      have := (Except.ok.injEq _ _).mp h.symm
      exact ⟨congrArg Prod.fst this, congrArg Prod.snd this⟩
    refine ⟨rfl, ?_⟩
    intro i hic _
    exact absurd hic (by simp)
  | cons c rest ih =>
    intro store cs st h
    simp only [decodeTopComments] at h
    rcases hd : DecodeReplies fuel c.data store with ⟨eo, c2, store2⟩
    rw [hd] at h
    cases eo with
    | some e => simp at h
    | none =>
      have h2 : (match decodeTopComments fuel rest store2 with
          | Except.error e => (Except.error e : Except GoErr (List CommentResponse × Store))
          | Except.ok (cs0, st0) => Except.ok (c2 :: cs0, st0)) = Except.ok (cs, st) := h
      cases hr : decodeTopComments fuel rest store2 with
      | error e => rw [hr] at h2; simp at h2
      | ok p =>
        rcases p with ⟨cs0, st0⟩
        rw [hr] at h2
        obtain ⟨hcs, hst⟩ : cs = c2 :: cs0 ∧ st = st0 := by
          have h3 := (Except.ok.injEq _ _).mp h2.symm
          exact ⟨congrArg Prod.fst h3, congrArg Prod.snd h3⟩
        subst hcs
        obtain ⟨hlen, helem⟩ := ih store2 cs0 st0 hr
        refine ⟨by simp [hlen], ?_⟩
        intro i hic hics
        cases i with
        | zero => exact ⟨store, store2, hd⟩
        | succ j =>
          have hic2 : j < rest.length := by simpa using hic
          have hics2 : j < cs0.length := by simpa using hics
          exact helem j hic2 hics2

/-! ## Claim theorems -/

/-- Claim C6: for every Comment whose RepliesPayload is exactly the two-byte
empty-string literal, decoding the replies succeeds, the child sequence
(`Replies`) stays empty, the raw buffer is released, and no recursion is
performed — the theorem holds at every fuel value, including a recursion
budget of zero. -/
theorem C6_emptyLiteral_terminal (fuel : Nat) (p : CommentResponse) (s : Store)
    (h1 : p.repliesListing = "\"\"") (h2 : p.replies = []) :
    DecodeReplies fuel p s = (none, { p with repliesListing := "" }, s) ∧
      ({ p with repliesListing := "" } : CommentResponse).replies = [] :=
  ⟨DecodeReplies_emptyLiteral fuel p s h1, h2⟩

/-- Witness for C6 at a concrete comment and recursion budget zero. -/
theorem C6_witness :
    DecodeReplies 0 { CommentResponse.zero with repliesListing := "\"\"" } [] =
      (none,
       { ({ CommentResponse.zero with repliesListing := "\"\"" } : CommentResponse) with
           repliesListing := "" }, []) ∧
    ({ ({ CommentResponse.zero with repliesListing := "\"\"" } : CommentResponse) with
        repliesListing := "" } : CommentResponse).replies = [] :=
  C6_emptyLiteral_terminal 0 { CommentResponse.zero with repliesListing := "\"\"" } [] rfl rfl

/-- Claim C7: `DecodeReplies` replaces the parent's `RepliesListing` with an
empty buffer exactly on its success paths; on every error path (a decode
failure at any depth) the parent keeps its original bytes. -/
theorem C7_buffer_release (fuel : Nat) (p : CommentResponse) (s : Store) :
    (∀ q t, DecodeReplies fuel p s = (none, q, t) → q.repliesListing = "") ∧
    (∀ e q t, DecodeReplies fuel p s = (some e, q, t) → q.repliesListing = p.repliesListing) :=
  ⟨fun q t h => DecodeReplies_success_listing fuel p s q t h,
   fun e q t h => DecodeReplies_error_listing fuel p s e q t h⟩

/-- Witness for C7: a successful decode that empties the buffer and a failed
decode that keeps it. -/
theorem C7_witness :
    ({ ({ CommentResponse.zero with repliesListing := "\"\"" } : CommentResponse) with
        repliesListing := "" } : CommentResponse).repliesListing = "" ∧
    CommentResponse.zero.repliesListing = CommentResponse.zero.repliesListing :=
  ⟨(C7_buffer_release 0 { CommentResponse.zero with repliesListing := "\"\"" } []).1 _ [] rfl,
   (C7_buffer_release 1 CommentResponse.zero []).2 .jsonSyntaxErr CommentResponse.zero [] rfl⟩

/-- Claim C10: a zero-length `RepliesListing` buffer (the `replies` key was
absent from the wire payload, or a previous successful decode already
emptied the buffer) makes `DecodeReplies` return an error rather than an
empty child sequence; consequently a second call after a success always
errors — the method is not idempotent after success. -/
theorem C10_emptyBuffer_not_idempotent :
    (∀ fuel p s, CommentResponse.repliesListing p = "" →
      ∃ e q t, DecodeReplies fuel p s = (some e, q, t)) ∧
    (∀ fuel fuel2 p s q t s2, DecodeReplies fuel p s = (none, q, t) →
      ∃ e q2 t2, DecodeReplies fuel2 q s2 = (some e, q2, t2)) :=
  ⟨fun fuel p s h0 => DecodeReplies_emptyBuffer_errors fuel p s h0,
   fun fuel fuel2 p s q t s2 h =>
     DecodeReplies_emptyBuffer_errors fuel2 q s2 (DecodeReplies_success_listing fuel p s q t h)⟩

/-- Witness for C10: the zero comment (nil buffer) errors, and a second call
after a successful empty-literal decode errors. -/
theorem C10_witness :
    (∃ e q t, DecodeReplies 2 CommentResponse.zero [] = (some e, q, t)) ∧
    (∃ e q2 t2, DecodeReplies 1 CommentResponse.zero [] = (some e, q2, t2)) :=
  ⟨C10_emptyBuffer_not_idempotent.1 2 CommentResponse.zero [] rfl,
   C10_emptyBuffer_not_idempotent.2 0 1 { CommentResponse.zero with repliesListing := "\"\"" }
     [] CommentResponse.zero [] [] rfl⟩

/-- Claim C8: the scalar codec decodes `1622548800.0` to that Unix second,
`false` to the zero Timestamp without error, and the bytes
`"not-a-number"` to a parse error. -/
theorem C8_timestamp_examples :
    floatTimeUnmarshal .zeroTime "1622548800.0" = .ok (.unix 1622548800) ∧
    floatTimeUnmarshal .zeroTime "false" = .ok .zeroTime ∧
    floatTimeUnmarshal .zeroTime "\"not-a-number\"" = .error (.floatParseErr "\"not-a-number\"") :=
  ⟨rfl, rfl, rfl⟩

/-- Claim C5 counterexample: the numeric literal `1` is accepted by Go
`strconv.ParseBool`, so the codec keeps the zero Timestamp instead of
decoding Unix second 1 as the claim states. -/
theorem C5_counterexample :
    floatTimeUnmarshal FloatTime.zeroTime "1" = Except.ok FloatTime.zeroTime ∧
    FloatTime.zeroTime ≠ FloatTime.unix 1 :=
  ⟨rfl, by decide⟩

/-- Claim C5 (amended): the zero-Timestamp normalization applies exactly to
the twelve literals Go `strconv.ParseBool` accepts (`true`/`false` plus
`1`, `0`, `t`, `f`, `T`, `F`, `TRUE`, `FALSE`, `True`, `False`); any other
input that parses as a decimal float decodes to the truncated Unix second,
and an input rejected by both parsers is an error. -/
theorem C5_parsebool_normalization :
    (∀ s ft b, parseGoBool s = some b → floatTimeUnmarshal ft s = .ok ft) ∧
    (∀ s ft n, parseGoBool s = none → parseGoFloatTrunc s = some n →
      floatTimeUnmarshal ft s = .ok (.unix n)) ∧
    (∀ s ft, parseGoBool s = none → parseGoFloatTrunc s = none →
      floatTimeUnmarshal ft s = .error (.floatParseErr s)) := by
  refine ⟨?_, ?_, ?_⟩
  · intro s ft b hb
    unfold floatTimeUnmarshal
    rw [hb]
  · intro s ft n h1 h2
    unfold floatTimeUnmarshal
    rw [h1, h2]
  · intro s ft h1 h2
    unfold floatTimeUnmarshal
    rw [h1, h2]

/-- Witness for C5 at the literals `0`, `2.5` and `abc`. -/
theorem C5_witness :
    floatTimeUnmarshal FloatTime.zeroTime "0" = Except.ok FloatTime.zeroTime ∧
    floatTimeUnmarshal FloatTime.zeroTime "2.5" = Except.ok (FloatTime.unix 2) ∧
    floatTimeUnmarshal FloatTime.zeroTime "abc" = Except.error (GoErr.floatParseErr "abc") :=
  ⟨C5_parsebool_normalization.1 "0" FloatTime.zeroTime false rfl,
   C5_parsebool_normalization.2.1 "2.5" FloatTime.zeroTime 2 rfl rfl,
   C5_parsebool_normalization.2.2 "abc" FloatTime.zeroTime rfl rfl⟩

/-! ## Remaining claim theorems: envelope, assembler, aliasing -/

/-- Claim C2 counterexample: the envelope bytes missing the `children` key
decode successfully with an empty sequence instead of failing with an
envelope error (Go `encoding/json` never errors on a missing key). -/
theorem C2_counterexample :
    unmarshalCommentListing "\x7b\"data\":\x7b\x7d\x7d" = .ok ⟨⟨[]⟩⟩ := rfl

/-- Claim C2 (amended): envelope unwrapping does not validate key presence —
an envelope object with no `data` member (and hence a fortiori one missing
`children`) decodes to the zero value, an empty sequence, with no error;
a decode error arises only when a present key holds a value of the wrong
JSON type; and `(an object with) "children":[]` still succeeds with the
empty sequence. -/
theorem C2_missing_keys_succeed :
    (∀ fs : List (String × Json), (∀ kv ∈ fs, lowerKey (Prod.fst kv) ≠ "data") →
      decodeCommentListingIntermediary (.obj fs) = .ok ⟨⟨[]⟩⟩) ∧
    unmarshalCommentListing "\x7b\"data\":\x7b\"children\":[]\x7d\x7d" = .ok ⟨⟨[]⟩⟩ ∧
    unmarshalCommentListing "\x7b\x7d" = .ok ⟨⟨[]⟩⟩ ∧
    unmarshalCommentListing "\x7b\"data\":5\x7d" = .error (.typeErr "commentIntermediary1") ∧
    unmarshalCommentListing "\x7b\"data\":\x7b\"children\":5\x7d\x7d" =
      .error (.typeErr "[]commentIntermediary2") := by
  refine ⟨?_, rfl, rfl, rfl, rfl⟩
  have key : ∀ (fs : List (String × Json)) (c : commentListingIntermediary),
      (∀ kv ∈ fs, lowerKey (Prod.fst kv) ≠ "data") →
      List.foldlM (fun c (kv : String × Json) =>
        if lowerKey kv.1 = "data" then
          (decodeCommentIntermediary1 kv.2).map fun x => { c with data := x }
        else Except.ok c) c fs = Except.ok c := by
    intro fs
    induction fs with
    | nil => intro c _; rfl
    | cons kv rest ih =>
      intro c hk
      have hkv : lowerKey kv.1 ≠ "data" := hk kv (List.mem_cons_self _ _)
      have hrest : ∀ kv2 ∈ rest, lowerKey (Prod.fst kv2) ≠ "data" :=
        fun kv2 hm => hk kv2 (List.mem_cons_of_mem _ hm)
      simp only [List.foldlM]
      rw [if_neg hkv]
      exact ih c hrest
  intro fs hfs
  exact key fs ⟨⟨[]⟩⟩ hfs

/-- Witness for C2's general part at a one-member object without `data`. -/
theorem C2_witness :
    decodeCommentListingIntermediary (Json.obj [("other", Json.null)]) = Except.ok ⟨⟨[]⟩⟩ :=
  C2_missing_keys_succeed.1 [("other", Json.null)]
    (fun kv hm => by rcases List.mem_singleton.mp hm with rfl; decide)

/-- An envelope listing with zero children, used both as a malformed
element 0 (no post child) and as an empty comments listing (element 1). -/
def emptyListing : String := "\x7b\"data\":\x7b\"children\":[]\x7d\x7d"

/-- Element 0 with two post children (ids `p1`, `p2`). -/
def twoPostA0 : String :=
  "\x7b\"data\":\x7b\"children\":[\x7b\"data\":\x7b\"id\":\"p1\"\x7d\x7d,\x7b\"data\":\x7b\"id\":\"p2\"\x7d\x7d]\x7d\x7d"

/-- A full two-element response body whose element 0 contains two posts. -/
def twoPostBody : String := "[" ++ twoPostA0 ++ "," ++ emptyListing ++ "]"

/-- Claim C1 counterexample: on a top-level response whose element 0 holds
TWO post children, `RequestPostJSON` does not fail with any error — it
silently returns the first post.  (The claim asserts an
`UnexpectedChildCount` failure and no Post.) -/
theorem C1_counterexample :
    requestPostJSONDecode 1 twoPostBody =
      DecOutcome.ok { PostResponse.zero with id := "p1" } [] := rfl

/-- Claim C1 (amended): element 0's child count is never validated — there
is no `UnexpectedChildCount` check in the code.  With zero children the
unchecked indexing `posts.Data.Children[0]` is a runtime out-of-range
panic (not a returned error value); with one or more children the first
child becomes the Post and any further children are ignored without
error. -/
theorem C1_no_child_count_check :
    (∀ (fuel : Nat) (a0 : String) (rest : List String) (posts : postListingIntermediary),
      unmarshalPostListing a0 = .ok posts →
      posts.data.children = [] →
      assembleFromArrays fuel (a0 :: rest) = .panics oorPanic) ∧
    (∀ (fuel : Nat) (a0 : String) (rest : List String) (posts : postListingIntermediary)
      (c1 : postIntermediary2) (cs : List postIntermediary2),
      unmarshalPostListing a0 = .ok posts →
      posts.data.children = c1 :: cs →
      assembleFromArrays fuel (a0 :: rest) = assembleWithPost fuel c1.data (a0 :: rest)) := by
  constructor
  · intro fuel a0 rest posts hu hc
    unfold assembleFromArrays
    simp only [List.get?, hu, hc]
  · intro fuel a0 rest posts c1 cs hu hc
    unfold assembleFromArrays
    simp only [List.get?, hu, hc]

/-- Witness for C1: zero post children panic, and with two children the
assembly proceeds with the first child as the Post. -/
theorem C1_witness :
    assembleFromArrays 1 [emptyListing] = DecOutcome.panics oorPanic ∧
    assembleFromArrays 1 [twoPostA0, emptyListing] =
      assembleWithPost 1 { PostResponse.zero with id := "p1" } [twoPostA0, emptyListing] :=
  ⟨C1_no_child_count_check.1 1 emptyListing [] ⟨⟨[]⟩⟩ rfl rfl,
   C1_no_child_count_check.2 1 twoPostA0 [emptyListing]
     ⟨⟨[⟨{ PostResponse.zero with id := "p1" }⟩, ⟨{ PostResponse.zero with id := "p2" }⟩]⟩⟩
     ⟨{ PostResponse.zero with id := "p1" }⟩ [⟨{ PostResponse.zero with id := "p2" }⟩] rfl rfl⟩

/-- Claim C9: for a well-formed two-element response (element 0 decodes
with at least one post child, element 1 decodes as a comment listing), the
assembly either fails with exactly the error of the top-comment decode
loop — which aborts at the first failing child, returning no Post — or
returns the post from element 0 carrying one fully decoded comment per
element-1 child, each the `DecodeReplies` output of the corresponding
child, in element 1's order. -/
theorem C9_assembly (fuel : Nat) (a0 a1 : String) (rest : List String)
    (posts : postListingIntermediary) (pc : postIntermediary2) (pcs : List postIntermediary2)
    (cl : commentListingIntermediary)
    (h0 : unmarshalPostListing a0 = .ok posts)
    (hc : posts.data.children = pc :: pcs)
    (h1 : unmarshalCommentListing a1 = .ok cl) :
    (∃ e, decodeTopComments fuel cl.data.children [] = .error e ∧
      assembleFromArrays fuel (a0 :: a1 :: rest) = .fails e) ∨
    (∃ cs st, decodeTopComments fuel cl.data.children [] = .ok (cs, st) ∧
      assembleFromArrays fuel (a0 :: a1 :: rest) = .ok { pc.data with replies := cs } st ∧
      cs.length = cl.data.children.length ∧
      ∀ i (hic : i < cl.data.children.length) (hics : i < cs.length), ∃ s1 s2,
        DecodeReplies fuel (cl.data.children.get ⟨i, hic⟩).data s1 =
          (none, cs.get ⟨i, hics⟩, s2)) := by
  have hassem : assembleFromArrays fuel (a0 :: a1 :: rest) =
      assembleWithPost fuel pc.data (a0 :: a1 :: rest) := by
    unfold assembleFromArrays
    simp only [List.get?, h0, hc]
  cases hd : decodeTopComments fuel cl.data.children [] with
  | error e =>
    left
    refine ⟨e, rfl, ?_⟩
    rw [hassem]
    unfold assembleWithPost
    simp only [List.get?, h1, hd]
  | ok p =>
    right
    rcases p with ⟨cs, st⟩
    obtain ⟨hlen, helem⟩ := decodeTopComments_spec fuel cl.data.children [] cs st hd
    refine ⟨cs, st, rfl, ?_, hlen, helem⟩
    rw [hassem]
    unfold assembleWithPost
    simp only [List.get?, h1, hd]

/-- Element 0 with exactly one post child (id `p1`). -/
def onePostA0 : String :=
  "\x7b\"data\":\x7b\"children\":[\x7b\"data\":\x7b\"id\":\"p1\"\x7d\x7d]\x7d\x7d"

/-- Element 1 with one comment (body `top`) whose replies value is the
empty-string literal. -/
def oneCommentA1 : String :=
  "\x7b\"data\":\x7b\"children\":[\x7b\"data\":\x7b\"body\":\"top\",\"replies\":\"\"\x7d\x7d]\x7d\x7d"

/-- The one comment of `oneCommentA1` as decoded from the wire. -/
def topCommentLit : CommentResponse :=
  { CommentResponse.zero with body := "top", repliesListing := "\"\"" }

/-- Witness for C9 at a concrete well-formed response. -/
theorem C9_witness :
    (∃ e, decodeTopComments 1 (commentListingIntermediary.data ⟨⟨[⟨topCommentLit⟩]⟩⟩).children [] = .error e ∧
      assembleFromArrays 1 (onePostA0 :: oneCommentA1 :: []) = .fails e) ∨
    (∃ cs st, decodeTopComments 1 (commentListingIntermediary.data ⟨⟨[⟨topCommentLit⟩]⟩⟩).children [] = .ok (cs, st) ∧
      assembleFromArrays 1 (onePostA0 :: oneCommentA1 :: []) =
        .ok { postIntermediary2.data ⟨{ PostResponse.zero with id := "p1" }⟩ with replies := cs } st ∧
      cs.length = (commentListingIntermediary.data ⟨⟨[⟨topCommentLit⟩]⟩⟩).children.length ∧
      ∀ i (hic : i < (commentListingIntermediary.data ⟨⟨[⟨topCommentLit⟩]⟩⟩).children.length)
        (hics : i < cs.length), ∃ s1 s2,
        DecodeReplies 1 ((commentListingIntermediary.data ⟨⟨[⟨topCommentLit⟩]⟩⟩).children.get ⟨i, hic⟩).data s1 =
          (none, cs.get ⟨i, hics⟩, s2)) :=
  C9_assembly 1 onePostA0 oneCommentA1 []
    ⟨⟨[⟨{ PostResponse.zero with id := "p1" }⟩]⟩⟩
    ⟨{ PostResponse.zero with id := "p1" }⟩ [] ⟨⟨[⟨topCommentLit⟩]⟩⟩ rfl rfl rfl

/-- Claim C3 (code refutation at the failing input): decoding a replies
payload with two children yields a parent whose Replies sequence holds the
SAME heap address twice — both entries alias the single loop-variable cell,
which finally holds the second child's record.  The nested listing itself
has two distinct children with bodies `A` and `B`. -/
theorem C3_sibling_aliasing :
    DecodeReplies 1 aliasParent [] =
      (none,
       { CommentResponse.zero with repliesListing := "", replies := [0, 0] },
       [{ CommentResponse.zero with body := "B", repliesListing := "" }]) ∧
    (unmarshalCommentListing twoChildListing).map
      (fun l => l.data.children.map fun c => c.data.body) = .ok ["A", "B"] :=
  ⟨rfl, rfl⟩

/-- Claim C4 (code refutation at the failing input): the decoded nested
Listing has children with bodies `A` then `B` — so the child COUNT matches —
but both materialized Replies entries dereference (through the duplicated
pointer 0) to one cell holding body `B`: the children's contents do not
match the nested Listing's children. -/
theorem C4_children_content_mismatch :
    ((DecodeReplies 1 aliasParent []).2.1.replies = [0, 0] ∧
     ((DecodeReplies 1 aliasParent []).2.2.get? 0 =
       some { CommentResponse.zero with body := "B", repliesListing := "" })) ∧
    (unmarshalCommentListing twoChildListing).map
      (fun l => l.data.children.map fun c => c.data.body) = .ok ["A", "B"] :=
  ⟨⟨rfl, rfl⟩, rfl⟩

end Goreddit
